import Mathlib

/-!
Shallow embedding of `src/iphone-favorites-saver.py` (iphone-favorites-saver).

Conventions of the embedding:
* Python strings are Lean `String`s; character-wise operations (`lower`,
  `upper`, `replace` of a single character, `split`, `join`) are modelled on
  `String.data` (`List Char`).  `str.isdigit` is modelled over the ASCII
  digits (the repository only ever feeds ASCII folder names such as
  `100APPLE` to it).
* `pathlib.PurePosixPath(...).as_posix()` is modelled by `posixNormalize`:
  spurious slashes and `.` segments are collapsed, a trailing slash is
  dropped, the empty path renders as `.`, and the POSIX `//` root is kept.
* The sqlite layer, the exiftool subprocess and the interactive prompt are
  boundary collaborators; they are modelled as explicit inputs (a
  `StoreOutcome`, a `ToolEnv`).  External tool invocations are recorded in an
  explicit `Event` trace so that "no write happened" is a statement about the
  trace.
-/

namespace IFSaver

/-- Python `s.lower()`, character-wise (ASCII). -/
def lowerStr (s : String) : String := String.mk (s.data.map Char.toLower)

/-- One character of `path_str.replace("\\", "/")` (line 425). -/
def slashify (c : Char) : Char := if c = '\\' then '/' else c

/-- Python `s.strip()` (ASCII whitespace): drop whitespace from both ends. -/
def pyStrip (s : String) : String :=
  String.mk (((s.data.dropWhile Char.isWhitespace).reverse.dropWhile Char.isWhitespace).reverse)

/-- Python `s.split(sep)` for a one-character separator: split at every
occurrence, keeping empty segments (`"".split("/") == [""]`). -/
def splitChar (sep : Char) : List Char → List (List Char)
  | [] => [[]]
  | c :: rest =>
    if c = sep then [] :: splitChar sep rest
    else
      match splitChar sep rest with
      | [] => [[c]]
      | s :: tail => (c :: s) :: tail

/-- Python `"/".join(parts)` (line 428). -/
def joinSegs : List (List Char) → List Char
  | [] => []
  | [s] => s
  | s :: t :: rest => s ++ '/' :: joinSegs (t :: rest)

/-- Python `s.isdigit()` restricted to ASCII: non-empty and all digits. -/
def pyIsDigit (l : List Char) : Bool := !l.isEmpty && l.all Char.isDigit

/-- The marker test of lines 427 and 451:
`part.upper().endswith(APPLE_SUFFIX) and part[:-5].isdigit()` with
`APPLE_SUFFIX = "APPLE"`.  `part[:-5]` is the segment without its last five
characters (empty when the segment is shorter). -/
def isAppleMarker (part : List Char) : Bool :=
  decide ((part.map Char.toUpper).reverse.take 5 = ['E', 'L', 'P', 'P', 'A'])
    && pyIsDigit (part.take (part.length - 5))

/-- The scan of the `for idx, part in enumerate(parts)` loop of
`truncate_to_apple_path` (lines 426-428): the suffix of the segment list
starting at the FIRST marker segment, `none` when there is none. -/
def truncSearch : List (List Char) → Option (List (List Char))
  | [] => none
  | p :: rest => if isAppleMarker p then some (p :: rest) else truncSearch rest

/-- `truncate_to_apple_path` (lines 424-429). -/
def truncate_to_apple_path (path_str : String) : String :=
  let replaced := path_str.data.map slashify
  match truncSearch (splitChar '/' replaced) with
  | some segs => String.mk (joinSegs segs)
  | none => String.mk replaced

/-- Modelled from the spec (§4.2 step 2): the suffix of the segment list
starting at the RIGHTMOST marker segment.  This follows the spec's words and
exists only to be compared with `truncSearch`, which the code implements. -/
def truncSearchRightmost : List (List Char) → Option (List (List Char))
  | [] => none
  | p :: rest =>
    match truncSearchRightmost rest with
    | some r => some r
    | none => if isAppleMarker p then some (p :: rest) else none

/-- Modelled from the spec (§4.2): `truncate_to_apple_path` as the spec words
it, keeping from the rightmost marker segment onward. -/
def truncate_to_apple_path_rightmost_spec (path_str : String) : String :=
  let replaced := path_str.data.map slashify
  match truncSearchRightmost (splitChar '/' replaced) with
  | some segs => String.mk (joinSegs segs)
  | none => String.mk replaced

/-- The root (anchor) `pathlib` keeps for a POSIX path: `//` for exactly two
leading slashes, `/` for one or three-plus, nothing for a relative path. -/
def posixRoot (chars : List Char) : List Char :=
  if chars.take 2 = ['/', '/'] ∧ chars.take 3 ≠ ['/', '/', '/'] then ['/', '/']
  else if chars.take 1 = ['/'] then ['/']
  else []

/-- The segments `pathlib` keeps: empty and `.` segments are dropped. -/
def posixParts (chars : List Char) : List (List Char) :=
  (splitChar '/' chars).filter fun seg => decide (seg ≠ [] ∧ seg ≠ ['.'])

/-- `pathlib.PurePosixPath(s).as_posix()`: collapse empty and `.` segments,
keep the `/` (or POSIX `//`) root, render the empty path as `.`. -/
def posixNormalize (s : String) : String :=
  if posixParts s.data = [] then
    (if posixRoot s.data = [] then "." else String.mk (posixRoot s.data))
  else String.mk (posixRoot s.data ++ joinSegs (posixParts s.data))

/-- `normalize_rel_path` (lines 432-433): `Path(rel_path).as_posix().lower()`. -/
def normalize_rel_path (rel_path : String) : String := lowerStr (posixNormalize rel_path)

/-- `build_relative_path` (lines 417-421): an empty directory returns the
filename unchanged; otherwise `(Path(directory) / filename).as_posix()`
(an absolute filename replaces the directory, as pathlib joins do). -/
def build_relative_path (directory filename : String) : String :=
  if directory = "" then filename
  else if filename.data.take 1 = ['/'] then posixNormalize filename
  else posixNormalize (directory ++ "/" ++ filename)

/-- The join key `read_database_metadata` stores for a row (lines 314-316):
directory and filename joined, truncated at the marker, then normalized. -/
def db_join_key (directory filename : String) : String :=
  normalize_rel_path (truncate_to_apple_path (build_relative_path directory filename))

/-- The join key `scan_photo_files` stores for a discovered file
(lines 460-461): the scan-root-relative path, normalized — note that the
scan side never calls `truncate_to_apple_path`. -/
def scan_join_key (rel_path : String) : String := normalize_rel_path rel_path

/-- `SUPPORTED_EXTENSIONS` (line 21). -/
def SUPPORTED_EXTENSIONS : List String := [".jpg", ".jpeg", ".heic", ".png"]

/-- The index of the last occurrence of `c`, as Python `s.rfind(c)` (Option
instead of -1). -/
def lastIdxOf (c : Char) : List Char → Option Nat
  | [] => none
  | a :: rest =>
    match lastIdxOf c rest with
    | some j => some (j + 1)
    | none => if a = c then some 0 else none

/-- `pathlib.PurePath(name).suffix` for a bare file name: the part from the
final dot, unless the dot is leading or trailing. -/
def path_suffix (name : String) : String :=
  let cs := name.data
  match lastIdxOf '.' cs with
  | some i => if 0 < i ∧ i < cs.length - 1 then String.mk (cs.drop i) else ""
  | none => ""

/-- The extension filter of `scan_photo_files` (lines 457-458). -/
def scan_ext_ok (file_name : String) : Bool :=
  SUPPORTED_EXTENSIONS.contains (lowerStr (path_suffix file_name))

/-- The ancestor-marker filter of `scan_photo_files` (line 451). -/
def dir_has_apple_part (path_parts : List (List Char)) : Bool :=
  path_parts.any isAppleMarker

/-- A path segment that survives `posixNormalize` unchanged and cannot be
split further: non-empty, not `.`, and free of separators. -/
def goodSeg (seg : List Char) : Prop := seg ≠ [] ∧ seg ≠ ['.'] ∧ '/' ∉ seg

instance (seg : List Char) : Decidable (goodSeg seg) :=
  inferInstanceAs (Decidable (seg ≠ [] ∧ seg ≠ ['.'] ∧ '/' ∉ seg))

/-! ## Data model of the merger (lines 31-61) -/

/-- `PhotoMeta` (lines 31-37). -/
structure PhotoMeta where
  relative_path : String
  favorite : Bool
  description : String
deriving DecidableEq

/-- `FileRecord` (lines 40-45). -/
structure FileRecord where
  rel_path : String
  full_path : String
deriving DecidableEq

/-- `MatchedPhoto` (lines 48-53). -/
structure MatchedPhoto where
  record : FileRecord
  meta : PhotoMeta
deriving DecidableEq

/-- `ExifData` (lines 56-61). -/
structure ExifData where
  rating : Option Int
  description : Option String
deriving DecidableEq

/-- The three replies `prompt_conflict` can return (lines 625-629). -/
inductive Decision where
  | overwrite
  | skip
  | skip_all
deriving DecidableEq

/-- The two CLI flags `run_migration` consults (lines 196-202). -/
structure Args where
  dry_run : Bool
  overwrite_original : Bool
deriving DecidableEq

/-- An external-tool invocation observable during the run: a call of the
decision oracle (`prompt_conflict`) or an exiftool write invocation
(`run_exiftool` with the given command arguments). -/
inductive Event where
  | oracleCall (rel_path : String)
  | writeCall (cmd_args : List String)
deriving DecidableEq

/-- The boundary collaborators of `run_migration`: `read_exif_data` (`none`
models a raised `ExifToolError`), the success of an exiftool write
invocation, and the decision oracle. -/
structure ToolEnv where
  readExif : String → Option ExifData
  writeOk : List String → Bool
  oracle : String → ExifData → PhotoMeta → Decision

/-- The mutable state of `run_migration` (lines 509-510): the `stats` dict
and the sticky `skip_all_conflicts` flag. -/
structure MigState where
  processed : Nat
  skipped : Nat
  errors : Nat
  skip_all_conflicts : Bool
deriving DecidableEq

/-- `needs_rating` (line 531). -/
def needs_rating (meta : PhotoMeta) (existing : ExifData) : Bool :=
  meta.favorite &&
    (match existing.rating with
     | none => true
     | some r => decide (r < 4))

/-- `needs_description` (line 532): `existing.description or ""` reads an
absent embedded description as the empty string. -/
def needs_description (meta : PhotoMeta) (existing : ExifData) : Bool :=
  (meta.description != "") && (meta.description != existing.description.getD "")

/-- `evaluate_conflict` (lines 599-602). -/
def evaluate_conflict (existing : ExifData) (needs_r needs_d : Bool) : Bool :=
  let rating_conflict := needs_r &&
    (match existing.rating with
     | none => false
     | some r => decide (r ≠ 4))
  let description_conflict := needs_d && (existing.description.getD "" != "")
  rating_conflict || description_conflict

/-- `build_write_cmd_args` (lines 675-700). -/
def build_write_cmd_args (file_path : String) (rating : Option Int)
    (description : Option String) (overwrite_original : Bool) : Option (List String) :=
  let updates :=
    (match rating with
     | some r => ["-Rating=" ++ toString r]
     | none => []) ++
    (match description with
     | some d => ["-ImageDescription=" ++ d, "-Description=" ++ d]
     | none => [])
  if updates = [] then none
  else some ((if overwrite_original then ["-overwrite_original"] else []) ++ updates ++ [file_path])

/-- `write_exif_data` (lines 657-672): returns whether it succeeded (False
models the caught `ExifToolError`) together with the tool invocations it
performed.  When there is nothing to write, no tool is invoked. -/
def write_exif_data (env : ToolEnv) (file_path : String) (rating : Option Int)
    (description : Option String) (overwrite_original : Bool) : Bool × List Event :=
  if rating = none ∧ description = none then (true, [])
  else
    match build_write_cmd_args file_path rating description overwrite_original with
    | none => (true, [])
    | some cmd_args => (env.writeOk cmd_args, [Event.writeCall cmd_args])

/-- Lines 559-594 of `run_migration`: the action computation, the dry-run
short-circuit (which logs the would-be command but invokes nothing) and the
write with its success/error counting. -/
def apply_pair_action (args : Args) (env : ToolEnv) (st : MigState) (meta : PhotoMeta)
    (full_path : String) (nr nd : Bool) : MigState × List Event :=
  let action_rating : Option Int := if nr then some 4 else none
  let action_description : Option String := if nd then some meta.description else none
  if args.dry_run then
    ({ st with processed := st.processed + 1 }, [])
  else
    match write_exif_data env full_path action_rating action_description args.overwrite_original with
    | (true, evs) => ({ st with processed := st.processed + 1 }, evs)
    | (false, evs) => ({ st with errors := st.errors + 1 }, evs)

/-- One iteration of the `for entry in matched` loop of `run_migration`
(lines 512-594), returning the updated state and this pair's tool events. -/
def process_pair (args : Args) (env : ToolEnv) (st : MigState) (entry : MatchedPhoto) :
    MigState × List Event :=
  let meta := entry.meta
  let rel_path := entry.record.rel_path
  let full_path := entry.record.full_path
  if !meta.favorite && meta.description == "" then
    ({ st with skipped := st.skipped + 1 }, [])
  else
    match env.readExif full_path with
    | none => ({ st with errors := st.errors + 1 }, [])
    | some existing =>
      let nr := needs_rating meta existing
      let nd := needs_description meta existing
      if !nr && !nd then
        ({ st with skipped := st.skipped + 1 }, [])
      else if evaluate_conflict existing nr nd then
        if st.skip_all_conflicts then
          ({ st with skipped := st.skipped + 1 }, [])
        else
          match env.oracle rel_path existing meta with
          | Decision.skip => ({ st with skipped := st.skipped + 1 }, [Event.oracleCall rel_path])
          | Decision.skip_all =>
            ({ st with skip_all_conflicts := true, skipped := st.skipped + 1 },
              [Event.oracleCall rel_path])
          | Decision.overwrite =>
            let res := apply_pair_action args env st meta full_path nr nd
            (res.1, Event.oracleCall rel_path :: res.2)
      else
        apply_pair_action args env st meta full_path nr nd

/-- The loop of `run_migration` from an arbitrary state. -/
def run_migration_from (args : Args) (env : ToolEnv) (st : MigState) :
    List MatchedPhoto → MigState × List Event
  | [] => (st, [])
  | e :: rest =>
    let step := process_pair args env st e
    let tail := run_migration_from args env step.1 rest
    (tail.1, step.2 ++ tail.2)

/-- `run_migration` (lines 503-596): counters start at zero and
`skip_all_conflicts` at False. -/
def run_migration (matched : List MatchedPhoto) (args : Args) (env : ToolEnv) :
    MigState × List Event :=
  run_migration_from args env
    { processed := 0, skipped := 0, errors := 0, skip_all_conflicts := false } matched

/-! ## Schema resolution and metadata extraction (lines 289-414) -/

/-- The three optional description sources of `build_metadata_query`. -/
inductive DescSource where
  | longDesc
  | title
  | caption
deriving DecidableEq

/-- One row of the `ZASSET` table together with the columns the `LEFT JOIN`s
can reach for it (NULL is `none`). -/
structure AssetRow where
  zfilename : Option String
  zdirectory : Option String
  ztrashedstate : Option Int
  zfavorite : Option Int
  ztitle : Option String
  zlongdescription : Option String
  zcaption : Option String
deriving DecidableEq

/-- One result row of the generated SELECT (line 402-412): `DESCRIPTION` is
the COALESCE expression, hence never NULL. -/
structure ResultRow where
  zfilename : Option String
  zdirectory : Option String
  zfavorite : Option Int
  description : String
deriving DecidableEq

/-- `NULLIF(col, '')` for one description source. -/
def evalSource (row : AssetRow) : DescSource → Option String
  | DescSource.title =>
    match row.ztitle with
    | some s => if s = "" then none else some s
    | none => none
  | DescSource.longDesc =>
    match row.zlongdescription with
    | some s => if s = "" then none else some s
    | none => none
  | DescSource.caption =>
    match row.zcaption with
    | some s => if s = "" then none else some s
    | none => none

/-- `COALESCE(clause_1, ..., clause_n, '')` over the built clause list
(lines 397-400): the first non-NULL value, else the empty string. -/
def coalesceDesc (sources : List DescSource) (row : AssetRow) : String :=
  match sources with
  | [] => ""
  | s :: rest =>
    match evalSource row s with
    | some v => v
    | none => coalesceDesc rest row

/-- The introspected schema: table name to column list, as `fetch_table_names`
returns it (lines 333-341). -/
def hasTable (tables : List (String × List String)) (tbl : String) : Bool :=
  (tables.lookup tbl).isSome

def hasCol (tables : List (String × List String)) (tbl col : String) : Bool :=
  ((tables.lookup tbl).getD []).contains col

/-- The condition under which the title clause enters the query: the guard
of line 353 together with the check of line 365. -/
def title_detected (tables : List (String × List String)) : Bool :=
  hasTable tables "ZADDITIONALASSETATTRIBUTES"
    && hasCol tables "ZADDITIONALASSETATTRIBUTES" "ZTITLE"

/-- The condition under which the long-description clause enters: the guard
of lines 369-372 together with the check of line 387. -/
def long_detected (tables : List (String × List String)) : Bool :=
  hasTable tables "ZASSETDESCRIPTION" && hasTable tables "ZADDITIONALASSETATTRIBUTES"
    && hasCol tables "ZASSETDESCRIPTION" "ZLONGDESCRIPTION"

/-- The condition under which the legacy caption clause enters (line 391). -/
def caption_detected (tables : List (String × List String)) : Bool :=
  hasTable tables "ZEXTENDEDATTRIBUTES" && hasCol tables "ZEXTENDEDATTRIBUTES" "ZCAPTION"

/-- The `desc_clauses` list exactly as `build_metadata_query` builds it
(lines 344-395): the title clause is appended first (line 366), the
long-description clause is inserted at position 0 (line 388), the caption
clause is appended last (line 395). -/
def build_desc_sources (tables : List (String × List String)) : List DescSource :=
  let desc_clauses : List DescSource := []
  let desc_clauses :=
    if title_detected tables then desc_clauses ++ [DescSource.title] else desc_clauses
  let desc_clauses :=
    if long_detected tables then DescSource.longDesc :: desc_clauses else desc_clauses
  let desc_clauses :=
    if caption_detected tables then desc_clauses ++ [DescSource.caption] else desc_clauses
  desc_clauses

/-- Modelled from the spec (§4.1): the resolved description is the first
non-empty value in the precedence order long-form description, then title,
then legacy caption, among the sources detected in the schema; the empty
string when none yields a value.  This follows the spec's words and exists to
be compared with the clause list the code builds. -/
def resolved_description_spec (tables : List (String × List String)) (row : AssetRow) : String :=
  match (if long_detected tables then evalSource row DescSource.longDesc else none) with
  | some v => v
  | none =>
    match (if title_detected tables then evalSource row DescSource.title else none) with
    | some v => v
    | none =>
      match (if caption_detected tables then evalSource row DescSource.caption else none) with
      | some v => v
      | none => ""

/-- The WHERE clause of the generated query (lines 410-411):
`ZTRASHEDSTATE = 0 AND (ZFAVORITE = 1 OR desc_expr != '')`, with SQL NULL
comparisons never satisfied. -/
def whereClause (sources : List DescSource) (row : AssetRow) : Bool :=
  (row.ztrashedstate == some 0)
    && ((row.zfavorite == some 1) || (coalesceDesc sources row != ""))

/-- Executing the generated SELECT over the asset table. -/
def runQuery (sources : List DescSource) (assets : List AssetRow) : List ResultRow :=
  (assets.filter (whereClause sources)).map fun a =>
    { zfilename := a.zfilename, zdirectory := a.zdirectory, zfavorite := a.zfavorite,
      description := coalesceDesc sources a }

/-- Python `bool(x)` for a nullable sqlite integer (line 311). -/
def pyTruthyInt : Option Int → Bool
  | some v => v != 0
  | none => false

/-- The dict entry lines 309-316 and 322 build from one result row. -/
def metadata_entry (row : ResultRow) : String × PhotoMeta :=
  let filename_db := row.zfilename.getD ""
  let directory := row.zdirectory.getD ""
  let favorite := pyTruthyInt row.zfavorite
  let description := pyStrip row.description
  let full_relative := build_relative_path directory filename_db
  let truncated := truncate_to_apple_path full_relative
  let normalized := normalize_rel_path truncated
  (normalized, { relative_path := truncated, favorite := favorite, description := description })

/-- The row loop of `read_database_metadata` (lines 307-322): first key wins,
later duplicates are skipped. -/
def build_metadata_dict (rows : List ResultRow) : List (String × PhotoMeta) :=
  rows.foldl
    (fun metadata row =>
      if (metadata.lookup (metadata_entry row).1).isSome then metadata
      else metadata ++ [metadata_entry row])
    []

/-- The outcome of the sqlite query block (lines 292-301): either the fetched
rows or a raised `sqlite3.Error`. -/
inductive StoreOutcome where
  | ok (rows : List ResultRow)
  | err
deriving DecidableEq

/-- `read_database_metadata` (lines 289-330): on `sqlite3.Error` the except
arm logs and returns the empty dict (line 303-305); otherwise the row loop
builds the keyed metadata dict. -/
def read_database_metadata : StoreOutcome → List (String × PhotoMeta)
  | StoreOutcome.err => []
  | StoreOutcome.ok rows => build_metadata_dict rows

/-- `match_metadata` (lines 478-500): for each metadata entry in order, pair
it with the file record under the same key, if any. -/
def match_metadata (metadata : List (String × PhotoMeta))
    (photo_files : List (String × FileRecord)) : List MatchedPhoto :=
  metadata.filterMap fun kv => (photo_files.lookup kv.1).map fun fr =>
    { record := fr, meta := kv.2 }

def EXIT_SUCCESS : Nat := 0
def EXIT_GENERAL_ERROR : Nat := 1
def EXIT_NO_PHOTOS : Nat := 4

/-- `main` from the metadata phase onward (lines 142-174), with the store
outcome and the scanned files as inputs: exit code, final counters and the
tool events of the run.  An empty scan exits `EXIT_NO_PHOTOS`; an empty match
exits `EXIT_SUCCESS` with zero counters; otherwise the migration runs and the
exit code reflects whether `errors = 0`. -/
def main_from_metadata (store : StoreOutcome) (photo_files : List (String × FileRecord))
    (args : Args) (env : ToolEnv) : Nat × MigState × List Event :=
  let metadata := read_database_metadata store
  if photo_files = [] then
    (EXIT_NO_PHOTOS, { processed := 0, skipped := 0, errors := 0, skip_all_conflicts := false }, [])
  else
    let matched := match_metadata metadata photo_files
    if matched = [] then
      (EXIT_SUCCESS, { processed := 0, skipped := 0, errors := 0, skip_all_conflicts := false }, [])
    else
      let res := run_migration matched args env
      (if res.1.errors = 0 then EXIT_SUCCESS else EXIT_GENERAL_ERROR, res.1, res.2)

/-! ## Concrete sample data used by witnesses -/

/-- The initial migration state (counters zero, sticky flag clear). -/
def st0 : MigState := { processed := 0, skipped := 0, errors := 0, skip_all_conflicts := false }

/-- A state in which the sticky skip-all flag is already set. -/
def st_sticky : MigState :=
  { processed := 0, skipped := 0, errors := 0, skip_all_conflicts := true }

def args_wet : Args := { dry_run := false, overwrite_original := false }

def args_dry : Args := { dry_run := true, overwrite_original := false }

def rec1 : FileRecord :=
  { rel_path := "100apple/img_1.jpg", full_path := "root/100APPLE/IMG_1.JPG" }

def meta_fav : PhotoMeta :=
  { relative_path := "100apple/img_1.jpg", favorite := true, description := "" }

def meta_none : PhotoMeta :=
  { relative_path := "100apple/img_1.jpg", favorite := false, description := "" }

def entry_fav : MatchedPhoto := { record := rec1, meta := meta_fav }

def entry_none : MatchedPhoto := { record := rec1, meta := meta_none }

def exif_r1 : ExifData := { rating := some 1, description := none }

def exif_empty : ExifData := { rating := none, description := none }

/-- Embedded metadata reads as rating 1; every conflict is overwritten. -/
def env_overwrite : ToolEnv :=
  { readExif := fun _ => some exif_r1, writeOk := fun _ => true,
    oracle := fun _ _ _ => Decision.overwrite }

/-- Embedded metadata reads as empty; the oracle always keeps existing. -/
def env_skip : ToolEnv :=
  { readExif := fun _ => some exif_empty, writeOk := fun _ => true,
    oracle := fun _ _ _ => Decision.skip }

/-- A non-trashed, non-favorite asset with no description source values. -/
def asset_plain : AssetRow :=
  { zfilename := some "IMG_1.JPG", zdirectory := some "100APPLE", ztrashedstate := some 0,
    zfavorite := some 0, ztitle := none, zlongdescription := none, zcaption := none }

/-- A schema exposing none of the three description sources. -/
def tables_bare : List (String × List String) := [("ZASSET", ["ZTRASHEDSTATE", "ZFAVORITE"])]

/-! ## Path lemmas -/

theorem splitChar_single (l : List Char) (h : '/' ∉ l) : splitChar '/' l = [l] := by
  induction l with
  | nil => rfl
  | cons c rest ih =>
    have hc : ¬(c = '/') := fun hc => h (by simp [hc])
    have hr : '/' ∉ rest := fun hm => h (List.mem_cons_of_mem c hm)
    simp only [splitChar, if_neg hc, ih hr]

theorem splitChar_append (s l : List Char) (h : '/' ∉ s) :
    splitChar '/' (s ++ '/' :: l) = s :: splitChar '/' l := by
  induction s with
  | nil => simp [splitChar]
  | cons c s2 ih =>
    have hc : ¬(c = '/') := fun hc => h (by simp [hc])
    have hs : '/' ∉ s2 := fun hm => h (List.mem_cons_of_mem c hm)
    show splitChar '/' (c :: (s2 ++ '/' :: l)) = (c :: s2) :: splitChar '/' l
    simp only [splitChar, if_neg hc, ih hs]

theorem splitChar_joinSegs (segs : List (List Char)) (hne : segs ≠ [])
    (h : ∀ s ∈ segs, '/' ∉ s) : splitChar '/' (joinSegs segs) = segs := by
  induction segs with
  | nil => exact absurd rfl hne
  | cons s rest ih =>
    cases rest with
    | nil => simpa [joinSegs] using splitChar_single s (h s (by simp))
    | cons t r =>
      have hs : '/' ∉ s := h s (by simp)
      have step := splitChar_append s (joinSegs (t :: r)) hs
      have htail := ih (by simp) (fun q hq => h q (List.mem_cons_of_mem s hq))
      simp only [joinSegs, step, htail]

theorem truncSearch_of_first (pre : List (List Char)) (p : List Char) (rest : List (List Char))
    (hpre : ∀ q ∈ pre, isAppleMarker q = false) (hp : isAppleMarker p = true) :
    truncSearch (pre ++ p :: rest) = some (p :: rest) := by
  induction pre with
  | nil => simp [truncSearch, hp]
  | cons q pre2 ih =>
    have hq : isAppleMarker q = false := hpre q (by simp)
    simp only [List.cons_append, truncSearch, hq]
    exact ih fun x hx => hpre x (List.mem_cons_of_mem q hx)

theorem truncSearch_none (l : List (List Char)) (h : ∀ q ∈ l, isAppleMarker q = false) :
    truncSearch l = none := by
  induction l with
  | nil => rfl
  | cons q rest ih =>
    have hq : isAppleMarker q = false := h q (by simp)
    simp only [truncSearch, hq]
    exact ih fun x hx => h x (List.mem_cons_of_mem q hx)

theorem joinSegs_map_lower (segs : List (List Char)) :
    (joinSegs segs).map Char.toLower = joinSegs (segs.map (List.map Char.toLower)) := by
  induction segs with
  | nil => rfl
  | cons s rest ih =>
    cases rest with
    | nil => rfl
    | cons t r =>
      have hslash : Char.toLower '/' = '/' := rfl
      simp only [joinSegs, List.map_cons, List.map_append, hslash, ih]

theorem joinSegs_cons_head (s : List Char) (rest : List (List Char)) (hs : s ≠ []) :
    ∃ c l, joinSegs (s :: rest) = c :: l ∧ c ∈ s := by
  cases s with
  | nil => exact absurd rfl hs
  | cons c s2 =>
    cases rest with
    | nil => exact ⟨c, s2, rfl, by simp⟩
    | cons t r => exact ⟨c, s2 ++ '/' :: joinSegs (t :: r), rfl, by simp⟩

theorem filter_goodSeg (segs : List (List Char)) (hg : ∀ x ∈ segs, goodSeg x) :
    (segs.filter fun seg => decide (seg ≠ [] ∧ seg ≠ ['.'])) = segs := by
  induction segs with
  | nil => rfl
  | cons s rest ih =>
    have hgs := hg s (by simp)
    have : (decide (s ≠ [] ∧ s ≠ ['.'])) = true := by
      exact decide_eq_true ⟨hgs.1, hgs.2.1⟩
    simp only [List.filter_cons, this, if_pos]
    rw [ih fun x hx => hg x (List.mem_cons_of_mem s hx)]

theorem posixNormalize_joinSegs (segs : List (List Char)) (hne : segs ≠ [])
    (hg : ∀ x ∈ segs, goodSeg x) :
    posixNormalize (String.mk (joinSegs segs)) = String.mk (joinSegs segs) := by
  obtain ⟨s, rest, rfl⟩ : ∃ s rest, segs = s :: rest := by
    cases segs with
    | nil => exact absurd rfl hne
    | cons s rest => exact ⟨s, rest, rfl⟩
  have hgs := hg s (by simp)
  obtain ⟨c, l, hjoin, hcs⟩ := joinSegs_cons_head s rest hgs.1
  have hc : c ≠ '/' := fun hcc => hgs.2.2 (hcc ▸ hcs)
  have htake1 : (c :: l).take 1 ≠ ['/'] := by
    simp [List.take_succ_cons, hc]
  have htake2 : ¬((c :: l).take 2 = ['/', '/'] ∧ (c :: l).take 3 ≠ ['/', '/', '/']) := by
    rintro ⟨h2, -⟩
    simp only [List.take_succ_cons] at h2
    injection h2 with hh _
    exact hc hh
  have hsplit : splitChar '/' (joinSegs (s :: rest)) = s :: rest :=
    splitChar_joinSegs _ (by simp) (fun x hx => (hg x hx).2.2)
  have hdata : (String.mk (joinSegs (s :: rest))).data = joinSegs (s :: rest) := rfl
  have hparts : posixParts (joinSegs (s :: rest)) = s :: rest := by
    unfold posixParts
    rw [hsplit, filter_goodSeg _ hg]
  have hroot : posixRoot (joinSegs (s :: rest)) = [] := by
    unfold posixRoot
    rw [hjoin, if_neg htake2, if_neg htake1]
  unfold posixNormalize
  rw [hdata, hparts, hroot, if_neg (by simp : ¬(s :: rest = ([] : List (List Char))))]
  simp

theorem truncate_to_apple_path_eq (s : String) :
    truncate_to_apple_path s
      = match truncSearch (splitChar '/' (s.data.map slashify)) with
        | some segs => String.mk (joinSegs segs)
        | none => String.mk (s.data.map slashify) := rfl

theorem normalize_rel_path_joinSegs (segs : List (List Char)) (hne : segs ≠ [])
    (hg : ∀ x ∈ segs, goodSeg x) :
    normalize_rel_path (String.mk (joinSegs segs))
      = String.mk (joinSegs (segs.map (List.map Char.toLower))) := by
  unfold normalize_rel_path
  rw [posixNormalize_joinSegs segs hne hg]
  unfold lowerStr
  rw [show (String.mk (joinSegs segs)).data = joinSegs segs from rfl, joinSegs_map_lower]

/-- Claim C3 (corrected): the path normalizer locates the LEFTMOST (first)
path segment consisting of one or more digits immediately followed by the
case-insensitive `APPLE` suffix, keeps that segment and all following
segments while discarding everything before it, leaves the path unchanged
(up to backslash-to-slash replacement) when no such segment exists, and
lower-cases the entire result. -/
theorem C3_thm (s : String) :
    (∀ pre p rest, splitChar '/' (s.data.map slashify) = pre ++ p :: rest →
      (∀ q ∈ pre, isAppleMarker q = false) → isAppleMarker p = true →
      (∀ x ∈ p :: rest, goodSeg x) →
      truncate_to_apple_path s = String.mk (joinSegs (p :: rest))
        ∧ normalize_rel_path (truncate_to_apple_path s)
            = String.mk (joinSegs ((p :: rest).map (List.map Char.toLower))))
    ∧ ((∀ q ∈ splitChar '/' (s.data.map slashify), isAppleMarker q = false) →
      truncate_to_apple_path s = String.mk (s.data.map slashify)) := by
  constructor
  · intro pre p rest hsplit hpre hp hgood
    have htrunc : truncate_to_apple_path s = String.mk (joinSegs (p :: rest)) := by
      rw [truncate_to_apple_path_eq, hsplit, truncSearch_of_first pre p rest hpre hp]
    refine ⟨htrunc, ?_⟩
    rw [htrunc, normalize_rel_path_joinSegs (p :: rest) (by simp) hgood]
  · intro hnone
    rw [truncate_to_apple_path_eq, truncSearch_none _ hnone]

/-- Witness for C3: on `DCIM/100APPLE/IMG_0001.JPG` the normalizer keeps the
(single, hence first) marker segment and what follows, lower-cased. -/
theorem C3_witness :
    truncate_to_apple_path "DCIM/100APPLE/IMG_0001.JPG" = "100APPLE/IMG_0001.JPG"
      ∧ normalize_rel_path (truncate_to_apple_path "DCIM/100APPLE/IMG_0001.JPG")
          = "100apple/img_0001.jpg" :=
  (C3_thm "DCIM/100APPLE/IMG_0001.JPG").1
    ["DCIM".data] "100APPLE".data ["IMG_0001.JPG".data]
    (by decide) (by decide) (by decide) (by decide)

/-- Counterexample for C3 as stated: on a path with two marker segments the
code keeps from the LEFTMOST marker, while the spec's rightmost rule keeps
only from the last one; the two results differ. -/
theorem C3_counterexample :
    normalize_rel_path (truncate_to_apple_path "9APPLE/100APPLE/IMG_1.JPG")
        = "9apple/100apple/img_1.jpg"
      ∧ lowerStr (truncate_to_apple_path_rightmost_spec "9APPLE/100APPLE/IMG_1.JPG")
          = "100apple/img_1.jpg"
      ∧ normalize_rel_path (truncate_to_apple_path "9APPLE/100APPLE/IMG_1.JPG")
          ≠ lowerStr (truncate_to_apple_path_rightmost_spec "9APPLE/100APPLE/IMG_1.JPG") := by
  refine ⟨by decide, by decide, by decide⟩

/-- Claim C1 (corrected): both sides lower-case through the same
`normalize_rel_path`, but only the metadata side truncates at the
collection-folder marker.  The two join keys are byte-identical whenever the
file's scan-root-relative path begins at the marker segment, regardless of
ASCII casing differences and of any root prefix on the metadata side. -/
theorem C1_thm (dir fn : String) (pre rest scanSegs : List (List Char)) (p : List Char)
    (hdb : splitChar '/' ((build_relative_path dir fn).data.map slashify) = pre ++ p :: rest)
    (hpre : ∀ q ∈ pre, isAppleMarker q = false)
    (hp : isAppleMarker p = true)
    (hgood : ∀ x ∈ p :: rest, goodSeg x)
    (hgood2 : ∀ x ∈ scanSegs, goodSeg x)
    (hcase : scanSegs.map (List.map Char.toLower) = (p :: rest).map (List.map Char.toLower)) :
    db_join_key dir fn = scan_join_key (String.mk (joinSegs scanSegs)) := by
  have hne2 : scanSegs ≠ [] := by
    intro hnil
    rw [hnil] at hcase
    exact absurd hcase.symm (by simp)
  have htrunc : truncate_to_apple_path (build_relative_path dir fn)
      = String.mk (joinSegs (p :: rest)) := by
    rw [truncate_to_apple_path_eq, hdb, truncSearch_of_first pre p rest hpre hp]
  unfold db_join_key scan_join_key
  rw [htrunc, normalize_rel_path_joinSegs (p :: rest) (by simp) hgood,
    normalize_rel_path_joinSegs scanSegs hne2 hgood2, hcase]

/-- Witness for C1: a metadata row rooted at `/private/var/mobile/Media/DCIM`
and a scan whose root-relative path starts at the marker folder (in different
ASCII case) produce the same key. -/
theorem C1_witness :
    db_join_key "/private/var/mobile/Media/DCIM/100APPLE" "IMG_0001.JPG"
      = scan_join_key (String.mk (joinSegs ["100apple".data, "img_0001.jpg".data])) :=
  C1_thm "/private/var/mobile/Media/DCIM/100APPLE" "IMG_0001.JPG"
    [[], "private".data, "var".data, "mobile".data, "Media".data, "DCIM".data]
    ["IMG_0001.JPG".data] ["100apple".data, "img_0001.jpg".data] "100APPLE".data
    (by decide) (by decide) (by decide) (by decide) (by decide) (by decide)

/-- Counterexample for C1 as stated: the same logical photo
`DCIM/100APPLE/IMG_0001.JPG`, an eligible file when scanned from a root one
level above `DCIM`, gets a key with the `dcim/` prefix kept, while the
metadata side truncates it away — the keys differ although only the root
prefixes of the two sources differ. -/
theorem C1_counterexample :
    dir_has_apple_part (splitChar '/' "DCIM/100APPLE".data) = true
      ∧ scan_ext_ok "IMG_0001.JPG" = true
      ∧ db_join_key "DCIM/100APPLE" "IMG_0001.JPG" = "100apple/img_0001.jpg"
      ∧ scan_join_key "DCIM/100APPLE/IMG_0001.JPG" = "dcim/100apple/img_0001.jpg"
      ∧ db_join_key "DCIM/100APPLE" "IMG_0001.JPG"
          ≠ scan_join_key "DCIM/100APPLE/IMG_0001.JPG" := by
  refine ⟨by decide, by decide, by decide, by decide, by decide⟩

/-! ## Merger lemmas -/

theorem write_exif_data_events (env : ToolEnv) (fp : String) (r : Option Int)
    (d : Option String) (ow : Bool) :
    (write_exif_data env fp r d ow).2 = []
      ∨ ∃ c, (write_exif_data env fp r d ow).2 = [Event.writeCall c] := by
  unfold write_exif_data
  split
  · exact Or.inl rfl
  · split
    · exact Or.inl rfl
    · exact Or.inr ⟨_, rfl⟩

theorem apply_pair_action_eq (args : Args) (env : ToolEnv) (st : MigState) (meta : PhotoMeta)
    (full : String) (nr nd : Bool) :
    apply_pair_action args env st meta full nr nd
      = if args.dry_run then ({ st with processed := st.processed + 1 }, [])
        else
          match write_exif_data env full (if nr then some 4 else none)
              (if nd then some meta.description else none) args.overwrite_original with
          | (true, evs) => ({ st with processed := st.processed + 1 }, evs)
          | (false, evs) => ({ st with errors := st.errors + 1 }, evs) := rfl

theorem apply_pair_action_fst (args : Args) (env : ToolEnv) (st : MigState) (meta : PhotoMeta)
    (full : String) (nr nd : Bool) :
    (apply_pair_action args env st meta full nr nd).1.skip_all_conflicts = st.skip_all_conflicts
      ∧ (apply_pair_action args env st meta full nr nd).1.processed
          + (apply_pair_action args env st meta full nr nd).1.skipped
          + (apply_pair_action args env st meta full nr nd).1.errors
        = st.processed + st.skipped + st.errors + 1 := by
  rw [apply_pair_action_eq]
  cases hd : args.dry_run
  · simp only [Bool.false_eq_true, if_false]
    rcases hw : write_exif_data env full (if nr then some 4 else none)
      (if nd then some meta.description else none) args.overwrite_original with ⟨success, evs⟩
    cases success <;> exact ⟨rfl, by simp <;> omega⟩
  · refine ⟨by simp, by simp <;> omega⟩

theorem apply_pair_action_no_oracle (args : Args) (env : ToolEnv) (st : MigState)
    (meta : PhotoMeta) (full : String) (nr nd : Bool) (r : String) :
    Event.oracleCall r ∉ (apply_pair_action args env st meta full nr nd).2 := by
  rw [apply_pair_action_eq]
  cases hd : args.dry_run
  · simp only [Bool.false_eq_true, if_false]
    have hev := write_exif_data_events env full (if nr then some 4 else none)
      (if nd then some meta.description else none) args.overwrite_original
    rcases hw : write_exif_data env full (if nr then some 4 else none)
      (if nd then some meta.description else none) args.overwrite_original with ⟨success, evs⟩
    rw [hw] at hev
    rcases hev with h | ⟨c, h⟩ <;> cases success <;> simp_all
  · simp

theorem apply_pair_action_dry (args : Args) (env : ToolEnv) (st : MigState) (meta : PhotoMeta)
    (full : String) (nr nd : Bool) (h : args.dry_run = true) :
    apply_pair_action args env st meta full nr nd
      = ({ st with processed := st.processed + 1 }, []) := by
  rw [apply_pair_action_eq, h]
  simp

theorem process_pair_eq (args : Args) (env : ToolEnv) (st : MigState) (entry : MatchedPhoto) :
    process_pair args env st entry
      = if (!entry.meta.favorite && entry.meta.description == "") then
          ({ st with skipped := st.skipped + 1 }, [])
        else
          match env.readExif entry.record.full_path with
          | none => ({ st with errors := st.errors + 1 }, [])
          | some existing =>
            if !needs_rating entry.meta existing && !needs_description entry.meta existing then
              ({ st with skipped := st.skipped + 1 }, [])
            else if evaluate_conflict existing (needs_rating entry.meta existing)
                (needs_description entry.meta existing) then
              if st.skip_all_conflicts then
                ({ st with skipped := st.skipped + 1 }, [])
              else
                match env.oracle entry.record.rel_path existing entry.meta with
                | Decision.skip =>
                  ({ st with skipped := st.skipped + 1 },
                    [Event.oracleCall entry.record.rel_path])
                | Decision.skip_all =>
                  ({ st with skip_all_conflicts := true, skipped := st.skipped + 1 },
                    [Event.oracleCall entry.record.rel_path])
                | Decision.overwrite =>
                  ((apply_pair_action args env st entry.meta entry.record.full_path
                      (needs_rating entry.meta existing)
                      (needs_description entry.meta existing)).1,
                    Event.oracleCall entry.record.rel_path
                      :: (apply_pair_action args env st entry.meta entry.record.full_path
                          (needs_rating entry.meta existing)
                          (needs_description entry.meta existing)).2)
            else
              apply_pair_action args env st entry.meta entry.record.full_path
                (needs_rating entry.meta existing) (needs_description entry.meta existing) := rfl

theorem process_pair_sum (args : Args) (env : ToolEnv) (st : MigState) (e : MatchedPhoto) :
    (process_pair args env st e).1.processed + (process_pair args env st e).1.skipped
        + (process_pair args env st e).1.errors
      = st.processed + st.skipped + st.errors + 1 := by
  rw [process_pair_eq]
  split
  · simp <;> omega
  · split
    · simp <;> omega
    · split
      · simp <;> omega
      · split
        · split
          · simp <;> omega
          · split
            · simp <;> omega
            · simp <;> omega
            · exact (apply_pair_action_fst args env st _ _ _ _).2
        · exact (apply_pair_action_fst args env st _ _ _ _).2

theorem process_pair_skip_all (args : Args) (env : ToolEnv) (st : MigState) (e : MatchedPhoto)
    (h : st.skip_all_conflicts = true) :
    (process_pair args env st e).1.skip_all_conflicts = true
      ∧ ∀ r, Event.oracleCall r ∉ (process_pair args env st e).2 := by
  rw [process_pair_eq]
  split
  · exact ⟨h, by simp⟩
  · split
    · exact ⟨h, by simp⟩
    · split
      · exact ⟨h, by simp⟩
      · split
        · exact ⟨h, by simp⟩
        · exact ⟨(apply_pair_action_fst args env st _ _ _ _).1.trans h,
            fun r => apply_pair_action_no_oracle args env st _ _ _ _ r⟩

theorem process_pair_dry_no_write (args : Args) (env : ToolEnv) (st : MigState)
    (e : MatchedPhoto) (hdry : args.dry_run = true) (c : List String) :
    Event.writeCall c ∉ (process_pair args env st e).2 := by
  rw [process_pair_eq]
  split
  · simp
  · split
    · simp
    · split
      · simp
      · split
        · split
          · simp
          · split
            · simp
            · simp
            · rw [apply_pair_action_dry args env st _ _ _ _ hdry]
              simp
        · rw [apply_pair_action_dry args env st _ _ _ _ hdry]
          simp

theorem run_from_sum (args : Args) (env : ToolEnv) (matched : List MatchedPhoto) :
    ∀ st : MigState,
      (run_migration_from args env st matched).1.processed
          + (run_migration_from args env st matched).1.skipped
          + (run_migration_from args env st matched).1.errors
        = st.processed + st.skipped + st.errors + matched.length := by
  induction matched with
  | nil => intro st; simp [run_migration_from]
  | cons e rest ih =>
    intro st
    have hstep := process_pair_sum args env st e
    have htail := ih (process_pair args env st e).1
    simp only [run_migration_from, List.length_cons]
    omega

theorem run_from_skip_all (args : Args) (env : ToolEnv) (matched : List MatchedPhoto) :
    ∀ st : MigState, st.skip_all_conflicts = true →
      (run_migration_from args env st matched).1.skip_all_conflicts = true
        ∧ ∀ r, Event.oracleCall r ∉ (run_migration_from args env st matched).2 := by
  induction matched with
  | nil => intro st h; exact ⟨h, by simp [run_migration_from]⟩
  | cons e rest ih =>
    intro st h
    have hstep := process_pair_skip_all args env st e h
    have htail := ih (process_pair args env st e).1 hstep.1
    refine ⟨htail.1, fun r hmem => ?_⟩
    simp only [run_migration_from, List.mem_append] at hmem
    exact hmem.elim (hstep.2 r) (htail.2 r)

theorem run_from_dry_no_write (args : Args) (env : ToolEnv) (matched : List MatchedPhoto)
    (hdry : args.dry_run = true) :
    ∀ (st : MigState) (c : List String),
      Event.writeCall c ∉ (run_migration_from args env st matched).2 := by
  induction matched with
  | nil => intro st c; simp [run_migration_from]
  | cons e rest ih =>
    intro st c hmem
    simp only [run_migration_from, List.mem_append] at hmem
    exact hmem.elim (process_pair_dry_no_write args env st e hdry c) (ih _ c)

theorem conflict_implies_needs (meta : PhotoMeta) (existing : ExifData)
    (h : evaluate_conflict existing (needs_rating meta existing)
        (needs_description meta existing) = true) :
    (needs_rating meta existing || needs_description meta existing) = true := by
  unfold evaluate_conflict at h
  cases hnr : needs_rating meta existing <;> cases hnd : needs_description meta existing <;>
    simp_all

theorem needs_imply_precheck_false (meta : PhotoMeta) (existing : ExifData)
    (h : (needs_rating meta existing || needs_description meta existing) = true) :
    (!meta.favorite && meta.description == "") = false := by
  rcases Bool.or_eq_true_iff.mp h with hnr | hnd
  · unfold needs_rating at hnr
    have hfav : meta.favorite = true := (Bool.and_eq_true_iff.mp hnr).1
    simp [hfav]
  · unfold needs_description at hnd
    have hdesc := (Bool.and_eq_true_iff.mp hnd).1
    simp only [bne_iff_ne, ne_eq] at hdesc
    simp [hdesc]

theorem needs_false_and (meta : PhotoMeta) (existing : ExifData)
    (h : (needs_rating meta existing || needs_description meta existing) = true) :
    (!needs_rating meta existing && !needs_description meta existing) = false := by
  cases hnr : needs_rating meta existing <;> cases hnd : needs_description meta existing <;>
    simp_all

/-- Claim C4 (confirmed): `needsRating` holds exactly when the record is
favorite and the embedded rating is absent or below 4; `needsDescription`
exactly when the metadata description is non-empty and differs from the
embedded one (absent read as empty); when neither holds the pair is counted
as skipped with no write (and no other tool call) performed. -/
theorem C4_thm (args : Args) (env : ToolEnv) (st : MigState) (entry : MatchedPhoto)
    (existing : ExifData)
    (hread : env.readExif entry.record.full_path = some existing) :
    (needs_rating entry.meta existing = true
        ↔ (entry.meta.favorite = true
            ∧ (existing.rating = none ∨ ∃ r : Int, existing.rating = some r ∧ r < 4)))
      ∧ (needs_description entry.meta existing = true
          ↔ (entry.meta.description ≠ ""
              ∧ entry.meta.description ≠ existing.description.getD ""))
      ∧ (needs_rating entry.meta existing = false → needs_description entry.meta existing = false →
          process_pair args env st entry = ({ st with skipped := st.skipped + 1 }, [])) := by
  refine ⟨?_, ?_, ?_⟩
  · unfold needs_rating
    cases hr : existing.rating <;> simp [hr]
  · unfold needs_description
    simp
  · intro h1 h2
    rw [process_pair_eq]
    split
    · rfl
    · rw [hread]
      simp [h1, h2]

/-- Witness for C4: a pair that is neither favorite nor described is counted
as skipped and produces no tool call. -/
theorem C4_witness :
    process_pair args_wet env_skip st0 entry_none
      = ({ processed := 0, skipped := 1, errors := 0, skip_all_conflicts := false }, []) :=
  (C4_thm args_wet env_skip st0 entry_none exif_empty rfl).2.2 rfl rfl

/-- Claim C5 (confirmed): a conflict is flagged exactly when (needsRating and
an embedded rating is present and differs from 4) or (needsDescription and
the embedded description is non-empty), and a write is performed on a
conflicting pair only after the oracle returned `overwrite` — with the
sticky flag clear and the oracle actually consulted. -/
theorem C5_thm (args : Args) (env : ToolEnv) (st : MigState) (entry : MatchedPhoto)
    (existing : ExifData)
    (hread : env.readExif entry.record.full_path = some existing) :
    (evaluate_conflict existing (needs_rating entry.meta existing)
          (needs_description entry.meta existing) = true
        ↔ ((needs_rating entry.meta existing = true
              ∧ ∃ r : Int, existing.rating = some r ∧ r ≠ 4)
            ∨ (needs_description entry.meta existing = true
                ∧ existing.description.getD "" ≠ "")))
      ∧ (evaluate_conflict existing (needs_rating entry.meta existing)
            (needs_description entry.meta existing) = true →
          ∀ c, Event.writeCall c ∈ (process_pair args env st entry).2 →
            st.skip_all_conflicts = false
              ∧ env.oracle entry.record.rel_path existing entry.meta = Decision.overwrite
              ∧ Event.oracleCall entry.record.rel_path ∈ (process_pair args env st entry).2) := by
  constructor
  · unfold evaluate_conflict
    cases hr : existing.rating <;> simp [hr]
  · intro hconf c hc
    have hneeds := conflict_implies_needs entry.meta existing hconf
    have hpre := needs_imply_precheck_false entry.meta existing hneeds
    have hand := needs_false_and entry.meta existing hneeds
    rw [process_pair_eq, hpre, hread] at hc ⊢
    simp only [Bool.false_eq_true, if_false, hand, hconf, if_true] at hc ⊢
    cases hsa : st.skip_all_conflicts
    · rw [hsa] at hc
      simp only [Bool.false_eq_true, if_false] at hc
      cases hdec : env.oracle entry.record.rel_path existing entry.meta
      · exact ⟨by simp, rfl, by simp⟩
      · rw [hdec] at hc
        simp at hc
      · rw [hdec] at hc
        simp at hc
    · rw [hsa] at hc
      simp at hc

/-- Witness for C5: a favorite photo with embedded rating 1 conflicts; with
an `overwrite` decision the write happens only after the oracle call. -/
theorem C5_witness :
    st0.skip_all_conflicts = false
      ∧ env_overwrite.oracle "100apple/img_1.jpg" exif_r1 meta_fav = Decision.overwrite
      ∧ Event.oracleCall "100apple/img_1.jpg"
          ∈ (process_pair args_wet env_overwrite st0 entry_fav).2 :=
  (C5_thm args_wet env_overwrite st0 entry_fav exif_r1 rfl).2 (by decide)
    ["-Rating=4", "root/100APPLE/IMG_1.JPG"] (by decide)

/-- Claim C6 (confirmed): once the sticky flag is set, it stays set for the
whole remaining run, no oracle call is ever made again, and every further
conflicting pair is counted as skipped with no tool event. -/
theorem C6_thm (args : Args) (env : ToolEnv) (st : MigState)
    (matched : List MatchedPhoto) (hst : st.skip_all_conflicts = true) :
    (run_migration_from args env st matched).1.skip_all_conflicts = true
      ∧ (∀ r, Event.oracleCall r ∉ (run_migration_from args env st matched).2)
      ∧ (∀ entry existing, env.readExif entry.record.full_path = some existing →
          evaluate_conflict existing (needs_rating entry.meta existing)
              (needs_description entry.meta existing) = true →
          process_pair args env st entry = ({ st with skipped := st.skipped + 1 }, [])) := by
  refine ⟨(run_from_skip_all args env matched st hst).1,
    (run_from_skip_all args env matched st hst).2, ?_⟩
  intro entry existing hrd hcf
  have hneeds := conflict_implies_needs entry.meta existing hcf
  have hpre := needs_imply_precheck_false entry.meta existing hneeds
  have hand := needs_false_and entry.meta existing hneeds
  rw [process_pair_eq, hpre, hrd, hst]
  simp only [Bool.false_eq_true, if_false, hand, hcf, if_true]

/-- Witness for C6: with the sticky flag set, a conflicting favorite pair is
skipped with no oracle call and no write. -/
theorem C6_witness :
    process_pair args_wet env_overwrite st_sticky entry_fav
      = ({ processed := 0, skipped := 1, errors := 0, skip_all_conflicts := true }, []) :=
  (C6_thm args_wet env_overwrite st_sticky [entry_fav] rfl).2.2 entry_fav exif_r1
    rfl (by decide)

/-- Claim C7 (confirmed): in dry-run mode no write invocation ever occurs in
the whole run, conflict detection and the oracle consultation still execute,
and a pair with a pending change is still counted as processed. -/
theorem C7_thm (args : Args) (env : ToolEnv) (st : MigState)
    (matched : List MatchedPhoto) (hdry : args.dry_run = true) :
    (∀ c, Event.writeCall c ∉ (run_migration_from args env st matched).2)
      ∧ (∀ entry existing, env.readExif entry.record.full_path = some existing →
          evaluate_conflict existing (needs_rating entry.meta existing)
              (needs_description entry.meta existing) = true →
          st.skip_all_conflicts = false →
          Event.oracleCall entry.record.rel_path ∈ (process_pair args env st entry).2)
      ∧ (∀ entry existing, env.readExif entry.record.full_path = some existing →
          (needs_rating entry.meta existing || needs_description entry.meta existing) = true →
          (evaluate_conflict existing (needs_rating entry.meta existing)
              (needs_description entry.meta existing) = false
            ∨ (st.skip_all_conflicts = false
                ∧ env.oracle entry.record.rel_path existing entry.meta
                    = Decision.overwrite)) →
          (process_pair args env st entry).1 = { st with processed := st.processed + 1 }) := by
  refine ⟨fun c => run_from_dry_no_write args env matched hdry st c, ?_, ?_⟩
  · intro entry existing hrd hcf hsaf
    have hneeds := conflict_implies_needs entry.meta existing hcf
    have hpre := needs_imply_precheck_false entry.meta existing hneeds
    have hand := needs_false_and entry.meta existing hneeds
    rw [process_pair_eq, hpre, hrd, hsaf]
    simp only [Bool.false_eq_true, if_false, hand, hcf, if_true]
    cases hdec : env.oracle entry.record.rel_path existing entry.meta <;> simp
  · intro entry existing hrd hno hdisj
    have hpre := needs_imply_precheck_false entry.meta existing hno
    have hand := needs_false_and entry.meta existing hno
    rcases hdisj with hnc | ⟨hsaf, how⟩
    · rw [process_pair_eq, hpre, hrd]
      simp only [Bool.false_eq_true, if_false, hand, hnc]
      rw [apply_pair_action_dry args env st entry.meta entry.record.full_path _ _ hdry]
    · by_cases hnc : evaluate_conflict existing (needs_rating entry.meta existing)
          (needs_description entry.meta existing) = true
      · rw [process_pair_eq, hpre, hrd, hsaf]
        simp only [Bool.false_eq_true, if_false, hand, hnc, if_true]
        rw [how, apply_pair_action_dry args env st entry.meta entry.record.full_path _ _ hdry]
        simp [hsaf]
      · have hnc2 : evaluate_conflict existing (needs_rating entry.meta existing)
            (needs_description entry.meta existing) = false := by
          revert hnc
          cases evaluate_conflict existing (needs_rating entry.meta existing)
            (needs_description entry.meta existing) <;> simp
        rw [process_pair_eq, hpre, hrd]
        simp only [Bool.false_eq_true, if_false, hand, hnc2]
        rw [apply_pair_action_dry args env st entry.meta entry.record.full_path _ _ hdry]

/-- Witness for C7: a dry-run pair with a pending rating change is counted
as processed. -/
theorem C7_witness :
    (process_pair args_dry env_skip st0 entry_fav).1
      = { processed := 1, skipped := 0, errors := 0, skip_all_conflicts := false } :=
  (C7_thm args_dry env_skip st0 [] rfl).2.2 entry_fav exif_empty rfl (by decide)
    (Or.inl (by decide))

/-- Claim C10 (confirmed): every iteration of the merge loop increments
exactly one of the three counters, so at the end of the run
processed + skipped + errors equals the number of matched pairs. -/
theorem C10_thm (matched : List MatchedPhoto) (args : Args) (env : ToolEnv) :
    (run_migration matched args env).1.processed + (run_migration matched args env).1.skipped
        + (run_migration matched args env).1.errors
      = matched.length := by
  have h := run_from_sum args env matched
    { processed := 0, skipped := 0, errors := 0, skip_all_conflicts := false }
  simpa [run_migration] using h

/-- Witness for C10: a two-pair run has its counters sum to 2. -/
theorem C10_witness :
    (run_migration [entry_fav, entry_none] args_wet env_overwrite).1.processed
        + (run_migration [entry_fav, entry_none] args_wet env_overwrite).1.skipped
        + (run_migration [entry_fav, entry_none] args_wet env_overwrite).1.errors
      = 2 :=
  C10_thm [entry_fav, entry_none] args_wet env_overwrite

/-- Claim C2 (corrected): on a storage-layer failure `read_database_metadata`
catches the error, logs it and returns the EMPTY mapping (no partial
results); the run then continues — it scans, matches nothing, processes no
pair, performs no tool call, and exits with `EXIT_SUCCESS` (or
`EXIT_NO_PHOTOS` when the scan is empty), not with an error abort. -/
theorem C2_thm (photo_files : List (String × FileRecord)) (args : Args) (env : ToolEnv) :
    read_database_metadata StoreOutcome.err = []
      ∧ (main_from_metadata StoreOutcome.err photo_files args env).2.1
          = { processed := 0, skipped := 0, errors := 0, skip_all_conflicts := false }
      ∧ (main_from_metadata StoreOutcome.err photo_files args env).2.2 = []
      ∧ (main_from_metadata StoreOutcome.err photo_files args env).1
          = (if photo_files = [] then EXIT_NO_PHOTOS else EXIT_SUCCESS) := by
  refine ⟨rfl, ?_, ?_, ?_⟩ <;>
    by_cases hpf : photo_files = [] <;>
      simp [main_from_metadata, match_metadata, read_database_metadata, hpf]

/-- Witness for C2 (amended claim): with an empty scan the run exits with
the no-photos code and zero counters. -/
theorem C2_witness :
    read_database_metadata StoreOutcome.err = []
      ∧ (main_from_metadata StoreOutcome.err [] args_wet env_skip).2.1
          = { processed := 0, skipped := 0, errors := 0, skip_all_conflicts := false }
      ∧ (main_from_metadata StoreOutcome.err [] args_wet env_skip).2.2 = []
      ∧ (main_from_metadata StoreOutcome.err [] args_wet env_skip).1
          = (if ([] : List (String × FileRecord)) = [] then EXIT_NO_PHOTOS else EXIT_SUCCESS) :=
  C2_thm [] args_wet env_skip

/-- Counterexample for C2 as stated: with a storage-layer failure and a
non-empty photo scan, the run does NOT abort with an error classification —
it continues past the metadata phase and terminates with `EXIT_SUCCESS`,
zero counters and zero tool calls. -/
theorem C2_counterexample :
    main_from_metadata StoreOutcome.err [("100apple/img_1.jpg", rec1)] args_wet env_skip
        = (EXIT_SUCCESS,
            { processed := 0, skipped := 0, errors := 0, skip_all_conflicts := false }, [])
      ∧ EXIT_SUCCESS ≠ EXIT_GENERAL_ERROR := by
  exact ⟨rfl, by decide⟩

theorem build_metadata_dict_mem (rows : List ResultRow) :
    ∀ (acc : List (String × PhotoMeta)) (kv : String × PhotoMeta),
      kv ∈ rows.foldl
          (fun metadata row =>
            if (metadata.lookup (metadata_entry row).1).isSome then metadata
            else metadata ++ [metadata_entry row]) acc →
      kv ∈ acc ∨ ∃ row ∈ rows, kv = metadata_entry row := by
  induction rows with
  | nil => intro acc kv h; exact Or.inl (by simpa using h)
  | cons r rs ih =>
    intro acc kv h
    rw [List.foldl_cons] at h
    rcases ih _ kv h with hacc | ⟨row, hrow, hkv⟩
    · split at hacc
      · exact Or.inl hacc
      · rcases List.mem_append.mp hacc with h1 | h2
        · exact Or.inl h1
        · exact Or.inr ⟨r, by simp, by simpa using h2⟩
    · exact Or.inr ⟨row, List.mem_cons_of_mem r hrow, hkv⟩

/-- Claim C8 (confirmed): every record the extractor emits comes from a
non-trashed asset satisfying the inclusion predicate (favorite set, or
resolved description non-empty), and when no asset satisfies it the
extractor emits nothing — the predicate is a strict filter. -/
theorem C8_thm (sources : List DescSource) (assets : List AssetRow) :
    (∀ kv ∈ read_database_metadata (StoreOutcome.ok (runQuery sources assets)),
        ∃ a ∈ assets, a.ztrashedstate = some 0
          ∧ (a.zfavorite = some 1 ∨ coalesceDesc sources a ≠ "")
          ∧ kv.2.favorite = pyTruthyInt a.zfavorite
          ∧ kv.2.description = pyStrip (coalesceDesc sources a))
      ∧ ((∀ a ∈ assets, a.zfavorite ≠ some 1 ∧ coalesceDesc sources a = "") →
          read_database_metadata (StoreOutcome.ok (runQuery sources assets)) = []) := by
  constructor
  · intro kv hkv
    have hmem := build_metadata_dict_mem (runQuery sources assets) [] kv
      (by simpa [read_database_metadata, build_metadata_dict] using hkv)
    rcases hmem with habs | ⟨row, hrow, hkv2⟩
    · simp at habs
    · unfold runQuery at hrow
      rcases List.mem_map.mp hrow with ⟨a, hafil, hproj⟩
      have hain := List.mem_filter.mp hafil
      have hw := hain.2
      unfold whereClause at hw
      rw [Bool.and_eq_true] at hw
      have htr : a.ztrashedstate = some 0 := by simpa using hw.1
      have hfav : a.zfavorite = some 1 ∨ coalesceDesc sources a ≠ "" := by
        rcases Bool.or_eq_true_iff.mp hw.2 with h | h
        · exact Or.inl (by simpa using h)
        · exact Or.inr (by simpa using h)
      subst hkv2
      subst hproj
      exact ⟨a, hain.1, htr, hfav, rfl, rfl⟩
  · intro hall
    have hfil : assets.filter (whereClause sources) = [] := by
      rw [List.filter_eq_nil]
      intro a ha
      have h2 := hall a ha
      unfold whereClause
      simp [h2.1, h2.2]
    unfold read_database_metadata build_metadata_dict runQuery
    rw [hfil]
    rfl

/-- Witness for C8: a single non-favorite, description-less asset yields an
empty extraction. -/
theorem C8_witness :
    read_database_metadata (StoreOutcome.ok (runQuery [DescSource.longDesc] [asset_plain]))
      = [] :=
  (C8_thm [DescSource.longDesc] [asset_plain]).2 (by decide)

/-- Claim C9 (confirmed): the resolved description equals the first
non-empty value in the precedence order long-form description, title,
legacy caption among the detected sources; with no source detected it is
always the empty string. -/
theorem C9_thm (tables : List (String × List String)) (row : AssetRow) :
    coalesceDesc (build_desc_sources tables) row = resolved_description_spec tables row
      ∧ (long_detected tables = false → title_detected tables = false →
          caption_detected tables = false →
          coalesceDesc (build_desc_sources tables) row = "") := by
  constructor
  · cases h1 : long_detected tables <;> cases h2 : title_detected tables <;>
      cases h3 : caption_detected tables <;>
      cases hl : evalSource row DescSource.longDesc <;>
      cases ht : evalSource row DescSource.title <;>
      cases hc : evalSource row DescSource.caption <;>
      simp [build_desc_sources, resolved_description_spec, coalesceDesc, h1, h2, h3, hl, ht, hc]
  · intro h1 h2 h3
    simp [build_desc_sources, coalesceDesc, h1, h2, h3]

/-- Witness for C9: with no description source in the schema the resolved
description is the empty string. -/
theorem C9_witness :
    coalesceDesc (build_desc_sources tables_bare) asset_plain = "" :=
  (C9_thm tables_bare asset_plain).2 rfl rfl rfl

end IFSaver
